import Mathlib

/-!
Verification development for the Pedigree backend (back/app).

The Python source is shallowly embedded:
* a JSON value is the inductive `Json`; a Python `dict` keyed by strings is an
  association list `Doc` whose keys are unique (CPython dicts cannot hold a
  duplicate key, and they preserve insertion order, which the embedding keeps);
* database tables (`users`, `pedigree_snapshots`) are lists of rows, queried
  with `List.find?` exactly as the SQLAlchemy `filter(...).first()` calls do;
* network calls (Google token verification) are parameters of the embedded
  handlers: any function of the right type may stand for the remote service;
* timestamps (`created_at` / `updated_at`) are database-generated and carry no
  logic in the source, so rows are embedded without them;
* `HTTPException(status_code=..., detail=...)` is the `ApiError` structure and
  fallible handlers return `Except ApiError _`.
-/

/-- A JSON value, as produced by `json.loads` / stored in the `people_json`
MySQL JSON column. -/
inductive Json where
  | null
  | bool (b : Bool)
  | num (n : Int)
  | str (s : String)
  | arr (elems : List Json)
  | obj (fields : List (String × Json))
deriving Repr

/-- A Python `dict[str, Any]` (for example `people_by_id` or `upserts`),
embedded as an insertion-ordered association list with unique keys. -/
abbrev Doc := List (String × Json)

/-- Keys of a document, in insertion order. -/
def docKeys (d : Doc) : List String := d.map Prod.fst

/-- Dictionary lookup `d[k]` (as an `Option`, i.e. Python `d.get(k)`). -/
def lookupKey (d : Doc) (k : String) : Option Json :=
  (d.find? (fun p => p.1 == k)).map (fun p => p.2)

/-- `current.pop(delete_id, None)` from `apply_snapshot_patch`: remove the
entry for `k` if present (a no-op when absent).  On a unique-key dict,
removing the single entry equals filtering every entry with that key. -/
def popKey (d : Doc) (k : String) : Doc :=
  d.filter (fun p => p.1 != k)

/-- `current[key] = value` from `apply_snapshot_patch`: replace the existing
entry in place (CPython keeps its position) or append a new one at the end. -/
def setKey : Doc → String → Json → Doc
  | [], k, v => [(k, v)]
  | (k1, v1) :: rest, k, v =>
    if k1 == k then (k, v) :: rest else (k1, v1) :: setKey rest k v

/-- The `for delete_id in deletes: current.pop(delete_id, None)` loop
(crud.py lines 122-123). -/
def applyDeletes (d : Doc) (deletes : List String) : Doc :=
  deletes.foldl popKey d

/-- The `for key, value in upserts.items(): current[key] = value` loop
(crud.py lines 125-126). -/
def applyUpserts (d : Doc) (upserts : Doc) : Doc :=
  upserts.foldl (fun acc kv => setKey acc kv.1 kv.2) d

/-- The pure merge at the heart of `apply_snapshot_patch` (crud.py lines
116-126): starting from the current document, apply every delete, then every
upsert. -/
def applyPatchDoc (d : Doc) (upserts : Doc) (deletes : List String) : Doc :=
  applyUpserts (applyDeletes d deletes) upserts

/-- A row of the `pedigree_snapshots` table (timestamps omitted: they are
database-generated and unused by the embedded logic). -/
structure SnapRow where
  user_id : Nat
  people_json : Doc
deriving Repr

/-- The `pedigree_snapshots` table: at most one row per `user_id` (unique
index), modelled as a list of rows queried by `find?`. -/
abbrev SnapDb := List SnapRow

/-- `get_snapshot` (crud.py lines 82-83):
`db.query(PedigreeSnapshot).filter(PedigreeSnapshot.user_id == user_id).first()`. -/
def get_snapshot (db : SnapDb) (user_id : Nat) : Option SnapRow :=
  db.find? (fun s => s.user_id == user_id)

/-- `upsert_snapshot` (crud.py lines 86-98): overwrite the existing row's
`people_json`, or insert a new row.  Returns the new table and the row the
Python function returns. -/
def upsert_snapshot (db : SnapDb) (user_id : Nat) (people_by_id : Doc) :
    SnapDb × SnapRow :=
  match get_snapshot db user_id with
  | some _ =>
    (db.map (fun s => if s.user_id == user_id then ⟨user_id, people_by_id⟩ else s),
     ⟨user_id, people_by_id⟩)
  | none => (db ++ [⟨user_id, people_by_id⟩], ⟨user_id, people_by_id⟩)

/-- `delete_snapshot` (crud.py lines 101-107): remove the row if present,
report whether one existed. -/
def delete_snapshot (db : SnapDb) (user_id : Nat) : SnapDb × Bool :=
  match get_snapshot db user_id with
  | some _ => (db.filter (fun s => s.user_id != user_id), true)
  | none => (db, false)

/-- `apply_snapshot_patch` (crud.py lines 110-128): load the current document
(or the empty map when no snapshot row exists — `snapshot.people_json` is
always a `dict` in this model, so the `isinstance` guard is always true),
apply all deletes, then all upserts, and persist via `upsert_snapshot`. -/
def apply_snapshot_patch (db : SnapDb) (user_id : Nat) (upserts : Doc)
    (deletes : List String) : SnapDb × SnapRow :=
  let current : Doc :=
    match get_snapshot db user_id with
    | some snapshot => snapshot.people_json
    | none => []
  upsert_snapshot db user_id (applyPatchDoc current upserts deletes)


/-- The request body of `POST /v1/auth/google` (schemas.GoogleLoginRequest):
every field is an optional string. -/
structure GoogleLoginRequest where
  id_token : Option String
  google_sub : Option String
  email : Option String
  name : Option String
  photo_url : Option String
deriving Repr, DecidableEq

/-- The normalized identity dict produced by the verification functions in
crud.py: keys `google_sub`, `email`, `name`, `photo_url`, each possibly
`None`. -/
structure Identity where
  google_sub : Option String
  email : Option String
  name : Option String
  photo_url : Option String
deriving Repr, DecidableEq

/-- The claims read off a verified Google identity token
(`token_info.get("sub")` and friends in crud.py lines 20-25). -/
structure TokenInfo where
  sub : Option String
  email : Option String
  name : Option String
  picture : Option String
deriving Repr, DecidableEq

/-- The one configuration value the identity verifier reads:
`settings.google_client_id` (config.py line 12, default `None`). -/
structure Settings where
  google_client_id : Option String
deriving Repr, DecidableEq

/-- Python truthiness of an optional string: `None` and `""` are falsy. -/
def pyTruthy : Option String → Bool
  | none => false
  | some s => !s.isEmpty

/-- `verify_google_identity` (crud.py lines 13-33): when both
`payload.id_token` and `settings.google_client_id` are truthy, verify the
token against the audience (the library call `id_token.verify_oauth2_token`
is the parameter `verifyToken`; a raised exception is `Except.error`);
otherwise return the caller-asserted fields of the request body. -/
def verify_google_identity (verifyToken : String → String → Except Unit TokenInfo)
    (settings : Settings) (payload : GoogleLoginRequest) : Except Unit Identity :=
  match payload.id_token, settings.google_client_id with
  | some tok, some aud =>
    if !tok.isEmpty && !aud.isEmpty then
      match verifyToken tok aud with
      | .ok info => .ok ⟨info.sub, info.email, info.name, info.picture⟩
      | .error e => .error e
    else
      .ok ⟨payload.google_sub, payload.email, payload.name, payload.photo_url⟩
  | _, _ =>
    .ok ⟨payload.google_sub, payload.email, payload.name, payload.photo_url⟩

/-- `str.startswith(p)` over explicit character lists. -/
def startsWithChars : List Char → List Char → Bool
  | _, [] => true
  | [], _ :: _ => false
  | c :: cs, p :: ps => c == p && startsWithChars cs ps

/-- `str.strip()` over an explicit character list: drop leading and trailing
whitespace. -/
def stripChars (cs : List Char) : List Char :=
  ((cs.dropWhile Char.isWhitespace).reverse.dropWhile Char.isWhitespace).reverse

/-- `extract_bearer_token` (main.py lines 51-57): `None` (or an empty header
value, both falsy) yields `None`; the value must start with `"Bearer "`; the
remainder after the 7-character prefix is stripped and returned, or `None`
when it strips to nothing (`... or None`).  Python string slicing, prefix
test and `strip` are modelled on the string's character list. -/
def extract_bearer_token (authorization : Option String) : Option String :=
  match authorization with
  | none => none
  | some s =>
    if s.data.isEmpty then none
    else if !(startsWithChars s.data ("Bearer ".data)) then none
    else
      let rest := stripChars (s.data.drop ("Bearer ".data.length))
      if rest.isEmpty then none else some (String.mk rest)

/-- `get_identity_from_access_token` (main.py lines 60-64): no extracted
token means "no token supplied" (`ok none`); otherwise the token goes to
`verify_google_access_token`, embedded as the parameter `verifyAccess`
(its `ValueError`s are `Except.error ()`). -/
def get_identity_from_access_token (verifyAccess : String → Except Unit Identity)
    (authorization : Option String) : Except Unit (Option Identity) :=
  match extract_bearer_token authorization with
  | none => .ok none
  | some token =>
    match verifyAccess token with
    | .ok identity => .ok (some identity)
    | .error e => .error e

/-- `HTTPException(status_code=..., detail=...)`. -/
structure ApiError where
  status_code : Nat
  detail : String
deriving Repr, DecidableEq

/-- A row of the `users` table (timestamps omitted as database-managed;
`google_sub` is the non-nullable unique column the claims are about). -/
structure UserRow where
  id : Nat
  google_sub : String
  email : Option String
  name : Option String
  photo_url : Option String
deriving Repr, DecidableEq

/-- The `users` table, with a unique index on `google_sub`. -/
abbrev UserDb := List UserRow

/-- `get_user_by_google_sub` (crud.py lines 78-79). -/
def get_user_by_google_sub (db : UserDb) (google_sub : String) : Option UserRow :=
  db.find? (fun u => u.google_sub == google_sub)

/-- `upsert_user` (crud.py lines 56-75): look up by `google_sub` (SQL `=`
comparison, never true against a `None` identity subject); if found,
overwrite `email`, `name`, `photo_url` of that row and return it; otherwise
insert a fresh row (`nextId` models the autoincrement surrogate key; the
handler has already ensured the subject is non-empty, so `getD ""` is never
reached on handler inputs). -/
def upsert_user (db : UserDb) (nextId : Nat) (identity : Identity) :
    UserDb × UserRow :=
  match db.find? (fun u => some u.google_sub == identity.google_sub) with
  | some u =>
    (db.map (fun v => if some v.google_sub == identity.google_sub then
        { u with email := identity.email, name := identity.name,
                 photo_url := identity.photo_url }
      else v),
     { u with email := identity.email, name := identity.name,
              photo_url := identity.photo_url })
  | none =>
    (db ++ [⟨nextId, identity.google_sub.getD "", identity.email, identity.name,
       identity.photo_url⟩],
     ⟨nextId, identity.google_sub.getD "", identity.email, identity.name,
      identity.photo_url⟩)

/-- `google_login` (main.py lines 67-96): try the access-token path; its
failure is a 401 with no fallback; only when no access token was supplied is
`verify_google_identity` consulted (its failure a different 401); the
produced identity must have a truthy subject and email (else 400); finally
`upsert_user`.  Returns the updated table with the response row. -/
def google_login (verifyAccess : String → Except Unit Identity)
    (verifyToken : String → String → Except Unit TokenInfo)
    (settings : Settings) (payload : GoogleLoginRequest)
    (authorization : Option String) (db : UserDb) (nextId : Nat) :
    Except ApiError (UserDb × UserRow) :=
  match get_identity_from_access_token verifyAccess authorization with
  | .error _ => .error ⟨401, "invalid access token"⟩
  | .ok idOpt =>
    let step : Except ApiError Identity :=
      match idOpt with
      | some identity => .ok identity
      | none =>
        match verify_google_identity verifyToken settings payload with
        | .ok identity => .ok identity
        | .error _ => .error ⟨401, "invalid id token"⟩
    match step with
    | .error e => .error e
    | .ok identity =>
      if !(pyTruthy identity.google_sub) || !(pyTruthy identity.email) then
        .error ⟨400, "google_sub/email is required"⟩
      else
        .ok (upsert_user db nextId identity)

/-- The success body of the pedigree endpoints (schemas.SnapshotResponse,
minus the database-managed timestamp). -/
structure SnapshotResponse where
  user_id : Nat
  people_by_id : Doc
deriving Repr

/-- `get_pedigree` (main.py lines 99-123): 401 on a failed access-token
verification, 401 when no token was supplied, 403 when the verified subject
differs from the path subject, 404 when the account does not exist, else the
stored document (the empty map when no snapshot row exists). -/
def get_pedigree (verifyAccess : String → Except Unit Identity)
    (google_sub : String) (authorization : Option String)
    (users : UserDb) (snaps : SnapDb) : Except ApiError SnapshotResponse :=
  match get_identity_from_access_token verifyAccess authorization with
  | .error _ => .error ⟨401, "invalid access token"⟩
  | .ok none => .error ⟨401, "access token is required"⟩
  | .ok (some identity) =>
    if identity.google_sub != some google_sub then
      .error ⟨403, "forbidden"⟩
    else
      match get_user_by_google_sub users google_sub with
      | none => .error ⟨404, "user not found"⟩
      | some user =>
        match get_snapshot snaps user.id with
        | some snapshot => .ok ⟨user.id, snapshot.people_json⟩
        | none => .ok ⟨user.id, []⟩

/-- The request body of `PATCH /v1/pedigree/{google_sub}`
(schemas.SnapshotPatchRequest), with pydantic defaults
`upserts={}`, `deletes=[]`, `compressed=False`, `payload_b64=None`. -/
structure SnapshotPatchRequest where
  upserts : Doc
  deletes : List String
  compressed : Bool
  payload_b64 : Option String
deriving Repr

/-- The decode stack used by the compressed-payload branch of
`patch_pedigree`: `base64.b64decode` (on the UTF-8 bytes of the string),
`gzip.decompress`, `bytes.decode("utf-8")`, `json.loads`.  Each library call
either returns a value or raises (`none`); bytes are lists of byte values. -/
structure DecodeOps where
  b64decode : String → Option (List Nat)
  gunzip : List Nat → Option (List Nat)
  utf8decode : List Nat → Option String
  jsonParse : String → Option Json

/-- The patch-decoding step of `patch_pedigree` (main.py lines 196-209):
start from the request's own `upserts`/`deletes`; when `compressed` is set,
a falsy `payload_b64` is a 400, and otherwise the whole
base64 → gzip → UTF-8 → JSON chain runs inside one `try` whose every failure
— including `body.get` on a non-object — is the single 400
"invalid compressed payload"; on success the envelope's `upserts` (default
`{}`) and `deletes` (default `[]`) replace the outer fields.  The effective
pair is returned as raw JSON values, exactly as Python's untyped locals. -/
def decodeEffectivePatch (ops : DecodeOps) (payload : SnapshotPatchRequest) :
    Except ApiError (Json × Json) :=
  if payload.compressed then
    match payload.payload_b64 with
    | none => .error ⟨400, "payload_b64 is required when compressed"⟩
    | some s =>
      if s.isEmpty then .error ⟨400, "payload_b64 is required when compressed"⟩
      else
        match ((ops.b64decode s).bind ops.gunzip).bind
            (fun bs => (ops.utf8decode bs).bind ops.jsonParse) with
        | some (Json.obj fields) =>
          .ok ((lookupKey fields "upserts").getD (Json.obj []),
               (lookupKey fields "deletes").getD (Json.arr []))
        | some _ => .error ⟨400, "invalid compressed payload"⟩
        | none => .error ⟨400, "invalid compressed payload"⟩
  else
    .ok (Json.obj payload.upserts, Json.arr (payload.deletes.map Json.str))

/-- A heap of Python dict objects, for the frame property of
`apply_snapshot_patch`: `cells a` is the dict at address `a`, and addresses
`< next` are the allocated ones. -/
structure Heap where
  cells : Nat → Doc
  next : Nat

/-- In-place mutation of the dict at address `a`. -/
def heapWrite (h : Heap) (a : Nat) (d : Doc) : Heap :=
  ⟨fun x => if x = a then d else h.cells x, h.next⟩

/-- Allocation of a fresh dict (`deepcopy` / `{}` both allocate). -/
def heapAlloc (h : Heap) (d : Doc) : Heap × Nat :=
  (⟨fun x => if x = h.next then d else h.cells x, h.next + 1⟩, h.next)

/-- The mutating body of `apply_snapshot_patch` (crud.py lines 116-126) with
the Python object heap explicit: `snapAddr` is the address of the stored
snapshot's `people_json` dict (when a snapshot exists), `upsAddr` the address
of the caller's `upserts` dict, and `deletes` the caller's list of
(immutable) strings.  `current = deepcopy(...)` (or `{}`) allocates a fresh
dict holding a value-copy of the prior document, and both loops mutate only
that fresh dict, in place. -/
def apply_snapshot_patch_heap (h : Heap) (snapAddr : Option Nat) (upsAddr : Nat)
    (deletes : List String) : Heap × Nat :=
  let init : Doc :=
    match snapAddr with
    | some a => h.cells a
    | none => []
  let alloc := heapAlloc h init
  let h1 := alloc.1
  let cur := alloc.2
  let h2 := deletes.foldl
    (fun hh k => heapWrite hh cur (popKey (hh.cells cur) k)) h1
  let h3 := (h2.cells upsAddr).foldl
    (fun hh kv => heapWrite hh cur (setKey (hh.cells cur) kv.1 kv.2)) h2
  (h3, cur)
@[simp]
theorem lookupKey_nil (k : String) : lookupKey [] k = none := rfl

@[simp]
theorem lookupKey_cons (k1 : String) (v1 : Json) (rest : Doc) (k : String) :
    lookupKey ((k1, v1) :: rest) k =
      if k1 == k then some v1 else lookupKey rest k := by
  by_cases h : k1 == k <;> simp [lookupKey, List.find?, h]

theorem lookupKey_setKey (d : Doc) (k k' : String) (v : Json) :
    lookupKey (setKey d k v) k' =
      if k == k' then some v else lookupKey d k' := by
  induction d with
  | nil =>
    by_cases h : k == k' <;> simp [setKey, h]
  | cons p rest ih =>
    obtain ⟨k1, v1⟩ := p
    by_cases h1 : k1 == k
    · have hk : k1 = k := by simpa using h1
      subst hk
      by_cases h2 : k1 == k' <;> simp [setKey, h1, h2]
    · have hk : k1 ≠ k := by simpa using h1
      by_cases h2 : k1 == k'
      · have hk2 : k1 = k' := by simpa using h2
        subst hk2
        have : ¬ (k == k1) := by simpa using (Ne.symm hk)
        simp [setKey, h1, h2, this]
      · simp [setKey, h1, h2, ih]

theorem lookupKey_popKey (d : Doc) (k k' : String) :
    lookupKey (popKey d k) k' =
      if k == k' then none else lookupKey d k' := by
  induction d with
  | nil => by_cases h : k == k' <;> simp [popKey, h]
  | cons p rest ih =>
    obtain ⟨k1, v1⟩ := p
    simp only [popKey] at ih ⊢
    rw [List.filter_cons]
    by_cases h1 : k1 == k
    · have hk : k1 = k := by simpa using h1
      subst hk
      simp only [bne_self_eq_false, if_neg Bool.false_ne_true, ih]
      by_cases h : k1 = k' <;> simp [h]
    · have hne1 : k1 ≠ k := by simpa using h1
      have hkeep : (((k1, v1) : String × Json).1 != k) = true := by
        simpa using hne1
      rw [if_pos hkeep]
      by_cases h2 : k1 == k'
      · have hk1 : k1 = k' := by simpa using h2
        subst hk1
        have hne : k ≠ k1 := Ne.symm hne1
        simp [h2, hne]
      · simp [h2, ih]

theorem lookupKey_applyDeletes (d : Doc) (deletes : List String) (k : String) :
    lookupKey (applyDeletes d deletes) k =
      if k ∈ deletes then none else lookupKey d k := by
  induction deletes generalizing d with
  | nil => simp [applyDeletes]
  | cons kd rest ih =>
    simp only [applyDeletes, List.foldl_cons] at ih ⊢
    rw [ih (popKey d kd), lookupKey_popKey]
    by_cases h1 : k ∈ rest
    · simp [h1]
    · by_cases h2 : kd = k
      · simp [h1, h2]
      · have h3 : ¬ (k = kd) := fun h => h2 h.symm
        simp [h1, h2, h3]

theorem lookupKey_applyUpserts_notMem (d : Doc) (upserts : Doc) (k : String)
    (h : k ∉ docKeys upserts) :
    lookupKey (applyUpserts d upserts) k = lookupKey d k := by
  induction upserts generalizing d with
  | nil => simp [applyUpserts]
  | cons p rest ih =>
    obtain ⟨k1, v1⟩ := p
    simp only [docKeys, List.map_cons, List.mem_cons, not_or] at h
    simp only [applyUpserts, List.foldl_cons] at ih ⊢
    rw [ih (setKey d k1 v1) h.2, lookupKey_setKey]
    have h3 : ¬ (k1 = k) := fun hkk => h.1 hkk.symm
    simp [h3]

theorem lookupKey_applyUpserts_mem (d : Doc) (upserts : Doc) (k : String) (v : Json)
    (hnd : (docKeys upserts).Nodup) (hmem : (k, v) ∈ upserts) :
    lookupKey (applyUpserts d upserts) k = some v := by
  induction upserts generalizing d with
  | nil => simp at hmem
  | cons p rest ih =>
    obtain ⟨k1, v1⟩ := p
    simp only [docKeys, List.map_cons, List.nodup_cons] at hnd
    rcases List.mem_cons.mp hmem with hhead | htail
    · obtain ⟨hk, hv⟩ := Prod.mk.injEq .. ▸ hhead
      subst hk
      subst hv
      simp only [applyUpserts, List.foldl_cons]
      have hnot : k ∉ docKeys rest := by
        simpa [docKeys] using hnd.1
      rw [show (rest.foldl (fun acc kv => setKey acc kv.1 kv.2) (setKey d k v)) =
            applyUpserts (setKey d k v) rest from rfl,
        lookupKey_applyUpserts_notMem _ _ _ hnot, lookupKey_setKey]
      simp
    · simp only [applyUpserts, List.foldl_cons]
      exact ih (setKey d k1 v1) hnd.2 htail

theorem setKey_notMem (d : Doc) (k : String) (v : Json) (h : k ∉ docKeys d) :
    setKey d k v = d ++ [(k, v)] := by
  induction d with
  | nil => rfl
  | cons p rest ih =>
    obtain ⟨k1, v1⟩ := p
    simp only [docKeys, List.map_cons, List.mem_cons, not_or] at h
    have : ¬ (k1 == k) = true := by simpa using fun hkk => h.1 hkk.symm
    simp [setKey, this, ih h.2]

theorem applyUpserts_disjoint (d : Doc) (upserts : Doc)
    (hnd : (docKeys upserts).Nodup)
    (hdisj : ∀ k ∈ docKeys upserts, k ∉ docKeys d) :
    applyUpserts d upserts = d ++ upserts := by
  induction upserts generalizing d with
  | nil => simp [applyUpserts]
  | cons p rest ih =>
    obtain ⟨k1, v1⟩ := p
    simp only [docKeys, List.map_cons, List.nodup_cons] at hnd
    have hk1 : k1 ∉ docKeys d := hdisj k1 (by simp [docKeys])
    simp only [applyUpserts, List.foldl_cons]
    rw [show (rest.foldl (fun acc kv => setKey acc kv.1 kv.2) (setKey d k1 v1)) =
          applyUpserts (setKey d k1 v1) rest from rfl,
      setKey_notMem d k1 v1 hk1, ih]
    · simp
    · exact hnd.2
    · intro k hk
      have hkrest : k ∈ docKeys rest := hk
      have h1 : k ∉ docKeys d := hdisj k (by
        simp only [docKeys, List.map_cons, List.mem_cons]
        exact Or.inr hkrest)
      have h2 : k ≠ k1 := fun h => hnd.1 (h ▸ hkrest)
      intro hmem
      have hsplit : k ∈ docKeys d ∨ k = k1 := by
        simpa [docKeys, List.map_append] using hmem
      rcases hsplit with hc | hc
      · exact h1 hc
      · exact h2 hc

theorem applyDeletes_nil (deletes : List String) : applyDeletes [] deletes = [] := by
  induction deletes with
  | nil => rfl
  | cons kd rest ih => simpa [applyDeletes, popKey] using ih

theorem find?_map_replaceRow (db : SnapDb) (user_id : Nat) (doc : Doc) :
    (db.find? (fun s => s.user_id == user_id)).isSome = true →
    (db.map (fun s => if s.user_id == user_id then ⟨user_id, doc⟩ else s)).find?
        (fun s => s.user_id == user_id) = some ⟨user_id, doc⟩ := by
  induction db with
  | nil => simp
  | cons s rest ih =>
    intro h
    by_cases hs : s.user_id == user_id
    · simp [List.find?, hs]
    · have hred : ∀ (l : List SnapRow),
          List.find? (fun t => t.user_id == user_id) (s :: l) =
            List.find? (fun t => t.user_id == user_id) l := by
        intro l
        simp [List.find?, hs]
      rw [List.map_cons, if_neg hs, hred]
      rw [hred] at h
      exact ih h

theorem get_snapshot_upsert_snapshot (db : SnapDb) (user_id : Nat) (doc : Doc) :
    get_snapshot (upsert_snapshot db user_id doc).1 user_id =
      some ⟨user_id, doc⟩ := by
  unfold upsert_snapshot
  cases hfind : get_snapshot db user_id with
  | none =>
    simp only
    unfold get_snapshot at hfind ⊢
    rw [List.find?_append, hfind]
    simp [List.find?]
  | some snap =>
    simp only
    unfold get_snapshot at hfind ⊢
    exact find?_map_replaceRow db user_id doc (by rw [hfind]; rfl)

/-- Claim C1: `apply_snapshot_patch` applies all deletes before all upserts,
so a key present in both the delete list and the upsert map ends up in the
result with the upsert's value (upsert wins the tie-break), and a key in the
delete list but not in the upsert map is absent from the result. -/
theorem claim_C1_deletes_before_upserts
    (D upserts : Doc) (deletes : List String) (k : String)
    (hnd : (docKeys upserts).Nodup) :
    (∀ v : Json, k ∈ deletes → (k, v) ∈ upserts →
        lookupKey (applyPatchDoc D upserts deletes) k = some v) ∧
    (k ∈ deletes → k ∉ docKeys upserts →
        lookupKey (applyPatchDoc D upserts deletes) k = none) := by
  constructor
  · intro v _ hv
    exact lookupKey_applyUpserts_mem _ _ _ _ hnd hv
  · intro hdel hnot
    unfold applyPatchDoc
    rw [lookupKey_applyUpserts_notMem _ _ _ hnot, lookupKey_applyDeletes]
    simp [hdel]

theorem claim_C1_witness :
    lookupKey (applyPatchDoc [("p1", Json.num 1), ("p2", Json.num 2)]
        [("p1", Json.num 9)] ["p1", "p3"]) "p1" = some (Json.num 9) ∧
    lookupKey (applyPatchDoc [("p1", Json.num 1), ("p2", Json.num 2)]
        [("p1", Json.num 9)] ["p3", "p1"]) "p3" = none := by
  constructor
  · exact (claim_C1_deletes_before_upserts
        [("p1", Json.num 1), ("p2", Json.num 2)] [("p1", Json.num 9)]
        ["p1", "p3"] "p1" (by decide)).1 (Json.num 9) (by decide) (by simp)
  · exact (claim_C1_deletes_before_upserts
        [("p1", Json.num 1), ("p2", Json.num 2)] [("p1", Json.num 9)]
        ["p3", "p1"] "p3" (by decide)).2 (by decide) (by decide)

/-- Claim C9: patching with an empty upsert map and an empty delete list is a
no-op: the merged document equals the stored one, and the stored snapshot's
document is unchanged by `apply_snapshot_patch(db, uid, {}, [])`. -/
theorem claim_C9_empty_patch_noop (d : Doc) (db : SnapDb) (user_id : Nat) :
    applyPatchDoc d [] [] = d ∧
    (get_snapshot db user_id = some ⟨user_id, d⟩ →
      get_snapshot (apply_snapshot_patch db user_id [] []).1 user_id =
        some ⟨user_id, d⟩) := by
  refine ⟨rfl, fun h => ?_⟩
  unfold apply_snapshot_patch
  rw [h]
  exact get_snapshot_upsert_snapshot db user_id d

theorem claim_C9_witness :
    applyPatchDoc [("p1", Json.str "Alice")] [] [] = [("p1", Json.str "Alice")] ∧
    get_snapshot
        (apply_snapshot_patch [⟨7, [("p1", Json.str "Alice")]⟩] 7 [] []).1 7 =
      some ⟨7, [("p1", Json.str "Alice")]⟩ := by
  have h := claim_C9_empty_patch_noop [("p1", Json.str "Alice")]
    [⟨7, [("p1", Json.str "Alice")]⟩] 7
  exact ⟨h.1, h.2 rfl⟩

/-- Claim C7: patching an account with no existing snapshot is legal: the
merge starts from the empty map, and the snapshot row is created holding
exactly the upsert keys with their values. -/
theorem claim_C7_patch_creates_snapshot (db : SnapDb) (user_id : Nat)
    (upserts : Doc) (deletes : List String)
    (hnone : get_snapshot db user_id = none)
    (hnd : (docKeys upserts).Nodup) :
    applyPatchDoc [] upserts deletes = upserts ∧
    get_snapshot (apply_snapshot_patch db user_id upserts deletes).1 user_id =
      some ⟨user_id, upserts⟩ := by
  have h1 : applyPatchDoc [] upserts deletes = upserts := by
    unfold applyPatchDoc
    rw [applyDeletes_nil, applyUpserts_disjoint [] upserts hnd (by simp [docKeys])]
    simp
  refine ⟨h1, ?_⟩
  unfold apply_snapshot_patch
  rw [hnone]
  simp only
  rw [h1]
  exact get_snapshot_upsert_snapshot db user_id upserts

theorem claim_C7_witness :
    applyPatchDoc [] [("p2", Json.str "Bob")] ["p1"] = [("p2", Json.str "Bob")] ∧
    get_snapshot
        (apply_snapshot_patch [⟨3, [("x", Json.null)]⟩] 5
          [("p2", Json.str "Bob")] ["p1"]).1 5 =
      some ⟨5, [("p2", Json.str "Bob")]⟩ :=
  claim_C7_patch_creates_snapshot [⟨3, [("x", Json.null)]⟩] 5
    [("p2", Json.str "Bob")] ["p1"] rfl (by decide)

theorem heapWrite_cells_ne (h : Heap) (a cur : Nat) (d : Doc) (hne : a ≠ cur) :
    (heapWrite h cur d).cells a = h.cells a := by
  simp [heapWrite, hne]

theorem heapWrite_cells_eq (h : Heap) (cur : Nat) (d : Doc) :
    (heapWrite h cur d).cells cur = d := by
  simp [heapWrite]

theorem foldl_heapWrite_cells_ne {α : Type} (f : Heap → α → Doc) (cur : Nat)
    (l : List α) (h : Heap) (a : Nat) (hne : a ≠ cur) :
    (l.foldl (fun hh x => heapWrite hh cur (f hh x)) h).cells a = h.cells a := by
  induction l generalizing h with
  | nil => rfl
  | cons x rest ih =>
    rw [List.foldl_cons, ih, heapWrite_cells_ne _ _ _ _ hne]

theorem foldl_heapWrite_cells_cur {α : Type} (f : Doc → α → Doc) (cur : Nat)
    (l : List α) (h : Heap) :
    (l.foldl (fun hh x => heapWrite hh cur (f (hh.cells cur) x)) h).cells cur =
      l.foldl f (h.cells cur) := by
  induction l generalizing h with
  | nil => rfl
  | cons x rest ih =>
    rw [List.foldl_cons, ih, List.foldl_cons, heapWrite_cells_eq]

/-- Claim C6: `apply_snapshot_patch` mutates none of the caller's objects:
every dict that existed before the call — in particular the stored snapshot's
document and the caller's `upserts` dict — holds the same value afterwards,
and the merge is computed on the independent fresh copy, which ends up equal
to the pure `applyPatchDoc` of the untouched inputs. -/
theorem claim_C6_no_input_mutation (h : Heap) (snapAddr : Option Nat)
    (upsAddr : Nat) (deletes : List String) (hu : upsAddr < h.next) :
    (∀ a, a < h.next →
      ((apply_snapshot_patch_heap h snapAddr upsAddr deletes).1).cells a =
        h.cells a) ∧
    ((apply_snapshot_patch_heap h snapAddr upsAddr deletes).1).cells
        (apply_snapshot_patch_heap h snapAddr upsAddr deletes).2 =
      applyPatchDoc
        (match snapAddr with | some a => h.cells a | none => [])
        (h.cells upsAddr) deletes := by
  have hdef : ∀ thing : Heap × Nat,
      thing = apply_snapshot_patch_heap h snapAddr upsAddr deletes →
      thing.2 = h.next ∧
      thing.1 = (((deletes.foldl
          (fun hh k => heapWrite hh h.next (popKey (hh.cells h.next) k))
          (heapAlloc h (match snapAddr with
            | some a => h.cells a | none => [])).1).cells upsAddr).foldl
        (fun hh kv => heapWrite hh h.next (setKey (hh.cells h.next) kv.1 kv.2))
        (deletes.foldl
          (fun hh k => heapWrite hh h.next (popKey (hh.cells h.next) k))
          (heapAlloc h (match snapAddr with
            | some a => h.cells a | none => [])).1)) := by
    intro thing ht
    subst ht
    exact ⟨rfl, rfl⟩
  obtain ⟨hsnd, hfst⟩ := hdef _ rfl
  clear hdef
  rw [hfst, hsnd]
  clear hfst hsnd
  set init : Doc := match snapAddr with | some a => h.cells a | none => []
    with hinit
  set h1 : Heap := (heapAlloc h init).1 with hh1
  have hframe1 : ∀ a, a ≠ h.next → h1.cells a = h.cells a := by
    intro a ha
    simp [hh1, heapAlloc, ha]
  have hcur1 : h1.cells h.next = init := by simp [hh1, heapAlloc]
  set h2 : Heap := deletes.foldl
    (fun hh k => heapWrite hh h.next (popKey (hh.cells h.next) k)) h1 with hh2
  have hframe2 : ∀ a, a ≠ h.next → h2.cells a = h1.cells a := by
    intro a ha
    exact foldl_heapWrite_cells_ne (fun hh k => popKey (hh.cells h.next) k)
      h.next deletes h1 a ha
  have hcur2 : h2.cells h.next = applyDeletes init deletes := by
    rw [hh2, foldl_heapWrite_cells_cur popKey h.next deletes h1, hcur1]
    rfl
  have hupsne : upsAddr ≠ h.next := Nat.ne_of_lt hu
  have hups : h2.cells upsAddr = h.cells upsAddr := by
    rw [hframe2 upsAddr hupsne, hframe1 upsAddr hupsne]
  rw [hups]
  constructor
  · intro a ha
    have hane : a ≠ h.next := Nat.ne_of_lt ha
    rw [foldl_heapWrite_cells_ne
        (fun hh kv => setKey (hh.cells h.next) kv.1 kv.2) h.next
        (h.cells upsAddr) h2 a hane,
      hframe2 a hane, hframe1 a hane]
  · rw [foldl_heapWrite_cells_cur
        (fun d kv => setKey d kv.1 kv.2) h.next (h.cells upsAddr) h2,
      hcur2]
    rfl

theorem claim_C6_witness :
    ((apply_snapshot_patch_heap
        ⟨fun a => if a = 0 then [("p1", Json.num 1)] else [("p2", Json.num 2)], 2⟩
        (some 0) 1 ["p1"]).1).cells 0 = [("p1", Json.num 1)] ∧
    ((apply_snapshot_patch_heap
        ⟨fun a => if a = 0 then [("p1", Json.num 1)] else [("p2", Json.num 2)], 2⟩
        (some 0) 1 ["p1"]).1).cells 1 = [("p2", Json.num 2)] ∧
    ((apply_snapshot_patch_heap
        ⟨fun a => if a = 0 then [("p1", Json.num 1)] else [("p2", Json.num 2)], 2⟩
        (some 0) 1 ["p1"]).1).cells
      (apply_snapshot_patch_heap
        ⟨fun a => if a = 0 then [("p1", Json.num 1)] else [("p2", Json.num 2)], 2⟩
        (some 0) 1 ["p1"]).2 = [("p2", Json.num 2)] := by
  have h := claim_C6_no_input_mutation
    ⟨fun a => if a = 0 then [("p1", Json.num 1)] else [("p2", Json.num 2)], 2⟩
    (some 0) 1 ["p1"] (by decide)
  exact ⟨h.1 0 (by decide), h.1 1 (by decide), h.2⟩

/-- Claim C2 counterexample: with a verification audience configured
(`google_client_id = some "aud"`) but no `id_token` on the request,
`verify_google_identity` returns the caller-asserted fields — even under a
verifier that rejects every token — so a configured audience does not
guarantee that the produced identity came from cryptographic verification. -/
theorem claim_C2_counterexample :
    verify_google_identity (fun _ _ => .error ()) ⟨some "aud"⟩
        ⟨none, some "attacker-sub", some "attacker@example.com", none, none⟩ =
      .ok ⟨some "attacker-sub", some "attacker@example.com", none, none⟩ := rfl

/-- Claim C2 (amended): the self-asserted dev payload is trusted exactly when
verification cannot run — when no verification audience is configured or when
no (non-empty) `id_token` was supplied; whenever both an `id_token` and an
audience are present and non-empty, the produced identity comes from
cryptographic verification of the identity token, never from the
caller-asserted fields. -/
theorem claim_C2_dev_fallback_gating
    (verifyToken : String → String → Except Unit TokenInfo)
    (settings : Settings) (payload : GoogleLoginRequest) :
    (pyTruthy payload.id_token = false ∨
        pyTruthy settings.google_client_id = false →
      verify_google_identity verifyToken settings payload =
        .ok ⟨payload.google_sub, payload.email, payload.name,
             payload.photo_url⟩) ∧
    (∀ tok aud, payload.id_token = some tok →
      settings.google_client_id = some aud →
      tok.isEmpty = false → aud.isEmpty = false →
      verify_google_identity verifyToken settings payload =
        (verifyToken tok aud).map
          (fun info => ⟨info.sub, info.email, info.name, info.picture⟩)) := by
  constructor
  · intro hfalsy
    unfold verify_google_identity
    match htok : payload.id_token, haud : settings.google_client_id with
    | none, _ => rfl
    | some tok, none => rfl
    | some tok, some aud =>
      rcases hfalsy with hf | hf
      · rw [htok] at hf
        simp only [pyTruthy, Bool.not_eq_false'] at hf
        simp [hf]
      · rw [haud] at hf
        simp only [pyTruthy, Bool.not_eq_false'] at hf
        simp [hf]
  · intro tok aud htok haud hto hau
    unfold verify_google_identity
    rw [htok, haud]
    simp only [hto, hau, Bool.not_false, Bool.and_self, if_true]
    cases verifyToken tok aud <;> rfl

theorem claim_C2_witness :
    verify_google_identity (fun _ _ => .error ()) ⟨none⟩
        ⟨some "tok", some "dev-sub", some "dev@example.com", none, none⟩ =
      .ok ⟨some "dev-sub", some "dev@example.com", none, none⟩ ∧
    verify_google_identity
        (fun _ _ => .ok ⟨some "real-sub", some "real@example.com", none, none⟩)
        ⟨some "aud"⟩
        ⟨some "tok", some "dev-sub", some "dev@example.com", none, none⟩ =
      .ok ⟨some "real-sub", some "real@example.com", none, none⟩ := by
  constructor
  · exact (claim_C2_dev_fallback_gating (fun _ _ => .error ()) ⟨none⟩
      ⟨some "tok", some "dev-sub", some "dev@example.com", none, none⟩).1
      (Or.inr rfl)
  · exact (claim_C2_dev_fallback_gating
      (fun _ _ => .ok ⟨some "real-sub", some "real@example.com", none, none⟩)
      ⟨some "aud"⟩
      ⟨some "tok", some "dev-sub", some "dev@example.com", none, none⟩).2
      "tok" "aud" rfl rfl rfl rfl

/-- Claim C8: whenever the verified token subject differs from the path
subject, `get_pedigree` answers 403 Forbidden for every state of the user and
snapshot tables — the forbidden check precedes any account or snapshot
lookup, so no document can leak. -/
theorem claim_C8_forbidden_before_lookup
    (verifyAccess : String → Except Unit Identity)
    (authorization : Option String) (identity : Identity) (google_sub : String)
    (hid : get_identity_from_access_token verifyAccess authorization =
      .ok (some identity))
    (hne : identity.google_sub ≠ some google_sub) :
    ∀ (users : UserDb) (snaps : SnapDb),
      get_pedigree verifyAccess google_sub authorization users snaps =
        .error ⟨403, "forbidden"⟩ := by
  intro users snaps
  unfold get_pedigree
  rw [hid]
  have hbne : (identity.google_sub != some google_sub) = true := by
    simpa using hne
  simp [hbne]

theorem claim_C8_witness :
    get_pedigree (fun _ => .ok ⟨some "sub-2", some "two@example.com", none, none⟩)
        "sub-1" (some "Bearer tok")
        [⟨1, "sub-1", some "one@example.com", none, none⟩]
        [⟨1, [("p1", Json.str "secret")]⟩] =
      .error ⟨403, "forbidden"⟩ :=
  claim_C8_forbidden_before_lookup
    (fun _ => .ok ⟨some "sub-2", some "two@example.com", none, none⟩)
    (some "Bearer tok") ⟨some "sub-2", some "two@example.com", none, none⟩
    "sub-1" (by rfl) (by decide)
    [⟨1, "sub-1", some "one@example.com", none, none⟩]
    [⟨1, [("p1", Json.str "secret")]⟩]

/-- Claim C3: when a bearer access token is supplied, the identity-token path
is never attempted: a failed access-token verification is a 401 regardless of
any (even valid) id_token in the body, and the login outcome is entirely
independent of the identity-token verifier, the configured audience, and the
request body. -/
theorem claim_C3_access_token_precedence
    (verifyAccess : String → Except Unit Identity)
    (authorization : Option String) (t : String)
    (hext : extract_bearer_token authorization = some t)
    (db : UserDb) (nextId : Nat) :
    (verifyAccess t = .error () →
      ∀ verifyToken settings payload,
        google_login verifyAccess verifyToken settings payload authorization
            db nextId =
          .error ⟨401, "invalid access token"⟩) ∧
    (∀ verifyToken1 settings1 payload1 verifyToken2 settings2 payload2,
      google_login verifyAccess verifyToken1 settings1 payload1 authorization
          db nextId =
        google_login verifyAccess verifyToken2 settings2 payload2 authorization
          db nextId) := by
  have hgi : get_identity_from_access_token verifyAccess authorization =
      match verifyAccess t with
      | .ok identity => .ok (some identity)
      | .error e => .error e := by
    unfold get_identity_from_access_token
    rw [hext]
  constructor
  · intro herr verifyToken settings payload
    unfold google_login
    rw [hgi, herr]
  · intro verifyToken1 settings1 payload1 verifyToken2 settings2 payload2
    unfold google_login
    rw [hgi]
    cases hva : verifyAccess t <;> rfl

theorem claim_C3_witness :
    google_login (fun _ => .error ()) (fun _ _ => .ok ⟨some "good-sub",
        some "good@example.com", none, none⟩) ⟨some "aud"⟩
        ⟨some "valid-id-token", none, none, none, none⟩
        (some "Bearer badtoken") [] 1 =
      .error ⟨401, "invalid access token"⟩ :=
  (claim_C3_access_token_precedence (fun _ => .error ())
      (some "Bearer badtoken") "badtoken" (by rfl) [] 1).1 rfl
    (fun _ _ => .ok ⟨some "good-sub", some "good@example.com", none, none⟩)
    ⟨some "aud"⟩ ⟨some "valid-id-token", none, none, none, none⟩

/-- Claim C10: an absent Authorization header, a value without the
`"Bearer "` prefix, or one whose remainder after the prefix strips to
nothing, is "no token supplied" (`none`), not an invalid-credential error:
`google_login` then behaves exactly as with no header at all — for any
access-token verifier, i.e. without consulting the provider — and
`get_pedigree` answers 401 "access token is required" for any verifier and
any table state. -/
theorem claim_C10_falsy_bearer_header
    (authorization : Option String)
    (h : authorization = none ∨
      ∃ s, authorization = some s ∧
        (startsWithChars s.data ("Bearer ".data) = false ∨
         stripChars (s.data.drop ("Bearer ".data.length)) = [])) :
    extract_bearer_token authorization = none ∧
    (∀ verifyAccess google_sub (users : UserDb) (snaps : SnapDb),
      get_pedigree verifyAccess google_sub authorization users snaps =
        .error ⟨401, "access token is required"⟩) ∧
    (∀ verifyAccess1 verifyAccess2 verifyToken settings payload
        (db : UserDb) (nextId : Nat),
      google_login verifyAccess1 verifyToken settings payload authorization
          db nextId =
        google_login verifyAccess2 verifyToken settings payload none
          db nextId) := by
  have hext : extract_bearer_token authorization = none := by
    rcases h with h | ⟨s, hs, hcase⟩
    · rw [h]
      rfl
    · subst hs
      unfold extract_bearer_token
      by_cases he : s.data.isEmpty
      · simp [he]
      · rcases hcase with hc | hc
        · simp [he, hc]
        · by_cases hsw : startsWithChars s.data ("Bearer ".data)
          · have hc7 : stripChars (s.data.drop 7) = [] := by simpa using hc
            simp [he, hsw, hc7]
          · simp [he, hsw]
  refine ⟨hext, ?_, ?_⟩
  · intro verifyAccess google_sub users snaps
    unfold get_pedigree get_identity_from_access_token
    rw [hext]
  · intro verifyAccess1 verifyAccess2 verifyToken settings payload db nextId
    unfold google_login get_identity_from_access_token
    rw [hext]
    rfl

theorem claim_C10_witness :
    extract_bearer_token (some "Bearer    ") = none ∧
    get_pedigree (fun _ => .ok ⟨some "sub-1", some "one@example.com", none, none⟩)
        "sub-1" (some "Bearer    ")
        [⟨1, "sub-1", some "one@example.com", none, none⟩] [] =
      .error ⟨401, "access token is required"⟩ ∧
    google_login (fun _ => .error ()) (fun _ _ => .error ()) ⟨none⟩
        ⟨none, some "dev-sub", some "dev@example.com", none, none⟩
        (some "Bearer    ") [] 1 =
      google_login (fun _ => .ok ⟨some "other", some "other@example.com", none, none⟩)
        (fun _ _ => .error ()) ⟨none⟩
        ⟨none, some "dev-sub", some "dev@example.com", none, none⟩
        none [] 1 := by
  have h := claim_C10_falsy_bearer_header (some "Bearer    ")
    (Or.inr ⟨"Bearer    ", rfl, Or.inr (by decide)⟩)
  exact ⟨h.1, h.2.1 _ "sub-1" _ _,
    h.2.2 (fun _ => .error ())
      (fun _ => .ok ⟨some "other", some "other@example.com", none, none⟩)
      (fun _ _ => .error ()) ⟨none⟩
      ⟨none, some "dev-sub", some "dev@example.com", none, none⟩ [] 1⟩



theorem countP_eq_one_of_nodup_map {α β : Type} [BEq β] [LawfulBEq β]
    (g : α → β) (l : List α) (b : β) (hnd : (l.map g).Nodup)
    (a : α) (ha : a ∈ l) (hab : g a = b) :
    l.countP (fun x => g x == b) = 1 := by
  induction l with
  | nil => simp at ha
  | cons x rest ih =>
    rw [List.map_cons, List.nodup_cons] at hnd
    rcases List.mem_cons.mp ha with hax | hax
    · subst hax
      have hx : (g a == b) = true := by simp [hab]
      rw [List.countP_cons_of_pos (p := fun x => g x == b) _ hx]
      have hzero : rest.countP (fun x => g x == b) = 0 := by
        rw [List.countP_eq_zero]
        intro y hy
        simp only [beq_iff_eq]
        intro hyb
        exact hnd.1 (hab ▸ hyb ▸ List.mem_map_of_mem g hy)
      rw [hzero]
    · have hx : ¬ ((g x == b) = true) := by
        simp only [beq_iff_eq]
        intro hxb
        exact hnd.1 (hxb ▸ hab ▸ List.mem_map_of_mem g hax)
      rw [List.countP_cons_of_neg (p := fun x => g x == b) _ hx]
      exact ih hnd.2 hax

/-- Claim C5: `upsert_user` never produces two account rows for one subject:
starting from a table whose subjects are unique, the subjects stay unique and
exactly one row carries the identity's subject; the returned row overwrites
`email`, `name`, `photo_url` unconditionally with the identity's values
(nulls included — last write wins, no merge) and is a row of the resulting
table; the table keeps its length when the subject already existed, and only
when it was absent is a new row inserted. -/
theorem claim_C5_upsert_user_unique (db : UserDb) (nextId : Nat)
    (identity : Identity) (s : String)
    (hsub : identity.google_sub = some s)
    (hnd : (db.map UserRow.google_sub).Nodup) :
    ((upsert_user db nextId identity).1.map UserRow.google_sub).Nodup ∧
    (upsert_user db nextId identity).1.countP (fun u => u.google_sub == s) = 1 ∧
    (upsert_user db nextId identity).2.google_sub = s ∧
    (upsert_user db nextId identity).2.email = identity.email ∧
    (upsert_user db nextId identity).2.name = identity.name ∧
    (upsert_user db nextId identity).2.photo_url = identity.photo_url ∧
    (upsert_user db nextId identity).2 ∈ (upsert_user db nextId identity).1 ∧
    ((∃ u ∈ db, u.google_sub = s) →
      (upsert_user db nextId identity).1.length = db.length) ∧
    ((∀ u ∈ db, u.google_sub ≠ s) →
      (upsert_user db nextId identity).1.length = db.length + 1) := by
  unfold upsert_user
  rw [hsub]
  cases hfind : db.find? (fun u => some u.google_sub == some s) with
  | some u =>
    have hpu : (some u.google_sub == some s) = true :=
      List.find?_some (p := fun u : UserRow => some u.google_sub == some s) hfind
    have hus : u.google_sub = s := by simpa using hpu
    have humem : u ∈ db := List.mem_of_find?_eq_some hfind
    have hu2sub : ({ u with email := identity.email, name := identity.name, photo_url := identity.photo_url } : UserRow).google_sub = s := hus
    have hsame : ((db.map (fun v => if some v.google_sub == some s then { u with email := identity.email, name := identity.name, photo_url := identity.photo_url } else v)).map UserRow.google_sub) = db.map UserRow.google_sub := by
      rw [List.map_map]
      refine List.map_congr_left ?_
      intro v _
      by_cases hv : (some v.google_sub == some s) = true
      · have hvs : v.google_sub = s := by simpa using hv
        simp only [Function.comp, hv, if_true]
        rw [hu2sub, hvs]
      · simp [Function.comp, hv]
    have hmem2 : ({ u with email := identity.email, name := identity.name, photo_url := identity.photo_url } : UserRow) ∈ db.map (fun v => if some v.google_sub == some s then { u with email := identity.email, name := identity.name, photo_url := identity.photo_url } else v) := by
      refine List.mem_map.mpr ⟨u, humem, ?_⟩
      show (if some u.google_sub == some s then _ else u) = _
      rw [if_pos hpu]
    refine ⟨?_, ?_, hu2sub, rfl, rfl, rfl, hmem2, ?_, ?_⟩
    · exact hsame.symm ▸ hnd
    · exact countP_eq_one_of_nodup_map UserRow.google_sub _ s
        (hsame.symm ▸ hnd) _ hmem2 hu2sub
    · intro _
      exact List.length_map _ _
    · intro hall
      exact absurd hus (hall u humem)
  | none =>
    have hnone : ∀ v ∈ db, ¬ ((fun u => some u.google_sub == some s) v = true) :=
      List.find?_eq_none.mp hfind
    have hnots : ∀ v ∈ db, v.google_sub ≠ s := by
      intro v hv hs2
      exact hnone v hv (by simp [hs2])
    have hu2sub : (⟨nextId, (some s).getD "", identity.email, identity.name, identity.photo_url⟩ : UserRow).google_sub = s := rfl
    have hdisj : List.Disjoint (db.map UserRow.google_sub)
        ([(⟨nextId, (some s).getD "", identity.email, identity.name, identity.photo_url⟩ : UserRow)].map UserRow.google_sub) := by
      intro a ha hb
      obtain ⟨v, hv, hvs⟩ := List.mem_map.mp ha
      have ha2 : a = s := by simpa using hb
      exact hnots v hv (hvs.trans ha2)
    have hynodup : ((db ++ [(⟨nextId, (some s).getD "", identity.email, identity.name, identity.photo_url⟩ : UserRow)]).map UserRow.google_sub).Nodup := by
      rw [List.map_append, List.nodup_append]
      exact ⟨hnd, List.nodup_singleton _, hdisj⟩
    have hmem2 : (⟨nextId, (some s).getD "", identity.email, identity.name, identity.photo_url⟩ : UserRow) ∈ db ++ [(⟨nextId, (some s).getD "", identity.email, identity.name, identity.photo_url⟩ : UserRow)] := by
      simp
    refine ⟨hynodup, ?_, hu2sub, rfl, rfl, rfl, hmem2, ?_, ?_⟩
    · exact countP_eq_one_of_nodup_map UserRow.google_sub _ s hynodup _ hmem2
        hu2sub
    · intro hex
      obtain ⟨v, hv, hvs⟩ := hex
      exact absurd hvs (hnots v hv)
    · intro _
      simp

theorem claim_C5_witness :
    ((upsert_user [⟨1, "sub-1", some "old@example.com", some "Old", some "p.jpg"⟩]
        2 ⟨some "sub-1", some "new@example.com", none, none⟩).1.map
          UserRow.google_sub).Nodup ∧
    (upsert_user [⟨1, "sub-1", some "old@example.com", some "Old", some "p.jpg"⟩]
        2 ⟨some "sub-1", some "new@example.com", none, none⟩).1.countP
          (fun u => u.google_sub == "sub-1") = 1 ∧
    (upsert_user [⟨1, "sub-1", some "old@example.com", some "Old", some "p.jpg"⟩]
        2 ⟨some "sub-1", some "new@example.com", none, none⟩).2 =
      ⟨1, "sub-1", some "new@example.com", none, none⟩ ∧
    (upsert_user [⟨1, "sub-1", some "old@example.com", some "Old", some "p.jpg"⟩]
        2 ⟨some "sub-1", some "new@example.com", none, none⟩).1.length = 1 := by
  have h := claim_C5_upsert_user_unique
    [⟨1, "sub-1", some "old@example.com", some "Old", some "p.jpg"⟩] 2
    ⟨some "sub-1", some "new@example.com", none, none⟩ "sub-1" rfl (by decide)
  refine ⟨h.1, h.2.1, rfl, ?_⟩
  exact h.2.2.2.2.2.2.2.1 ⟨_, List.mem_singleton_self _, rfl⟩

/-- Claim C4: with `compressed = true`, an absent `payload_b64` is rejected
with a 400; otherwise the payload is base64-decoded, gunzipped, parsed as
UTF-8 JSON, the effective upserts (default empty map) and deletes (default
empty list) are read off the decoded object while the outer request's
`upserts`/`deletes` are discarded, and a failure at any decode stage is the
single 400 "invalid compressed payload" error. -/
theorem claim_C4_compressed_decode (ops : DecodeOps)
    (payload : SnapshotPatchRequest) (hc : payload.compressed = true) :
    (payload.payload_b64 = none →
      decodeEffectivePatch ops payload =
        .error ⟨400, "payload_b64 is required when compressed"⟩) ∧
    (∀ s fields, payload.payload_b64 = some s → s.isEmpty = false →
      ((ops.b64decode s).bind ops.gunzip).bind
          (fun bs => (ops.utf8decode bs).bind ops.jsonParse) =
        some (Json.obj fields) →
      decodeEffectivePatch ops payload =
        .ok ((lookupKey fields "upserts").getD (Json.obj []),
             (lookupKey fields "deletes").getD (Json.arr []))) ∧
    (∀ s, payload.payload_b64 = some s → s.isEmpty = false →
      ((ops.b64decode s).bind ops.gunzip).bind
          (fun bs => (ops.utf8decode bs).bind ops.jsonParse) = none →
      decodeEffectivePatch ops payload =
        .error ⟨400, "invalid compressed payload"⟩) ∧
    (∀ upserts2 deletes2,
      decodeEffectivePatch ops
          { payload with upserts := upserts2, deletes := deletes2 } =
        decodeEffectivePatch ops payload) := by
  refine ⟨?_, ?_, ?_, ?_⟩
  · intro hb
    unfold decodeEffectivePatch
    rw [hc, hb]
    rfl
  · intro s fields hb hne hdec
    unfold decodeEffectivePatch
    rw [hc, hb]
    simp only [if_true]
    rw [hdec]
    simp [hne]
  · intro s hb hne hdec
    unfold decodeEffectivePatch
    rw [hc, hb]
    simp only [if_true]
    rw [hdec]
    simp [hne]
  · intro upserts2 deletes2
    unfold decodeEffectivePatch
    rw [hc]
    rfl

theorem claim_C4_witness :
    decodeEffectivePatch
        ⟨fun s => if s = "b64" then some [1] else none,
         fun b => if b = [1] then some [2] else none,
         fun b => if b = [2] then some "json" else none,
         fun t => if t = "json" then
           some (Json.obj [("deletes", Json.arr [Json.str "p1"])]) else none⟩
        ⟨[("x", Json.null)], ["y"], true, some "b64"⟩ =
      .ok (Json.obj [], Json.arr [Json.str "p1"]) ∧
    decodeEffectivePatch
        ⟨fun s => if s = "b64" then some [1] else none,
         fun b => if b = [1] then some [2] else none,
         fun b => if b = [2] then some "json" else none,
         fun t => if t = "json" then
           some (Json.obj [("deletes", Json.arr [Json.str "p1"])]) else none⟩
        ⟨[], [], true, none⟩ =
      .error ⟨400, "payload_b64 is required when compressed"⟩ ∧
    decodeEffectivePatch
        ⟨fun s => if s = "b64" then some [1] else none,
         fun b => if b = [1] then some [2] else none,
         fun b => if b = [2] then some "json" else none,
         fun t => if t = "json" then
           some (Json.obj [("deletes", Json.arr [Json.str "p1"])]) else none⟩
        ⟨[], [], true, some "corrupted"⟩ =
      .error ⟨400, "invalid compressed payload"⟩ := by
  refine ⟨?_, ?_, ?_⟩
  · exact (claim_C4_compressed_decode _
      ⟨[("x", Json.null)], ["y"], true, some "b64"⟩ rfl).2.1 "b64"
      [("deletes", Json.arr [Json.str "p1"])] rfl rfl (by rfl)
  · exact (claim_C4_compressed_decode _ ⟨[], [], true, none⟩ rfl).1 rfl
  · exact (claim_C4_compressed_decode _ ⟨[], [], true, some "corrupted"⟩
      rfl).2.2.1 "corrupted" rfl rfl (by rfl)
